import Mathlib

/-!
Shallow embedding of the moviejs core (`src/util.js` keyframe/interpolation/
caching machinery and `src/movie.js` render-loop state machine), with theorems
checking the natural-language specification against it.

JS numbers are modelled as rationals (`ℚ`); JS runtime values that matter to
the interpolation machinery (numbers, strings, plain objects) are modelled by
`JSValue`.  Plain objects are association lists of (key, value) pairs — real JS
objects have distinct keys and all plain objects share `Object.prototype`, so
the source's `Object.getPrototypeOf(x1) !== Object.getPrototypeOf(x2)` check
never fires for the values representable in this model.
-/

namespace Moviejs

mutual

inductive JSValue where
  | num : ℚ → JSValue
  | str : String → JSValue
  | obj : JSFields → JSValue
deriving DecidableEq

/-- The own enumerable properties of a plain JS object, in insertion order. -/
inductive JSFields where
  | nil : JSFields
  | cons : String → JSValue → JSFields → JSFields
deriving DecidableEq

end

/-- Decidable equality for `Except` results, so that concrete evaluations of
the fallible operations can be settled by `decide`. -/
instance {ε α : Type} [DecidableEq ε] [DecidableEq α] : DecidableEq (Except ε α) :=
  fun x y =>
    match x, y with
    | .ok a, .ok b =>
      if h : a = b then .isTrue (by rw [h]) else .isFalse (by simp [h])
    | .error e, .error f =>
      if h : e = f then .isTrue (by rw [h]) else .isFalse (by simp [h])
    | .ok _, .error _ => .isFalse (by simp)
    | .error _, .ok _ => .isFalse (by simp)

/-- The JS `typeof` kinds that occur in the model. -/
inductive JSKind where
  | number
  | string
  | object
deriving DecidableEq

/-- `typeof v` for the representable values. -/
def JSValue.kind : JSValue → JSKind
  | .num _ => .number
  | .str _ => .string
  | .obj _ => .object

/-- `Object.keys`, in insertion order. -/
def JSFields.keys : JSFields → List String
  | .nil => []
  | .cons k _ rest => k :: rest.keys

/-- `x[key]` / `x.hasOwnProperty(key)` combined: first binding of `key`. -/
def JSFields.lookupField : JSFields → String → Option JSValue
  | .nil, _ => none
  | .cons k v rest, key => if k = key then some v else rest.lookupField key

mutual

/--
`linearInterp(x1, x2, t, objectKeys)` from `src/util.js`.

In the source, the object branch computes `keys = Object.keys(x1) || objectKeys`;
`Object.keys(x1)` is an array and therefore always truthy, so `objectKeys` is
never consulted, and the recursive calls `linearInterp(x1[key], x2[key], t)`
pass no `objectKeys` either.  The iteration over `Object.keys(x1)` with
`x1.hasOwnProperty(key) && x2.hasOwnProperty(key)` guards is rendered as a
walk over `x1`'s field list keeping the keys that `x2` also has.
-/
def linearInterp (x1 x2 : JSValue) (t : ℚ) (objectKeys : Option (List String)) :
    Except String JSValue :=
  if x1.kind ≠ x2.kind then .error "Type mismatch"
  else
    match x1, x2 with
    | .str s, _ =>
      -- neither a number nor an object: flat interpolation (floor)
      .ok (.str s)
    | .obj fs1, .obj fs2 =>
      -- prototype check omitted: all plain objects share a prototype here
      match linearInterpFields fs1 fs2 t with
      | .ok fs => .ok (.obj fs)
      | .error e => .error e
    | .num a, .num b => .ok (.num ((1 - t) * a + t * b))
    | v1, _ => .ok v1  -- unreachable: kinds are equal in every remaining case
termination_by structural x1

/-- The `for (keys of Object.keys(x1))` loop body of `linearInterp`'s object
branch: take the intersection of properties, recursing with no `objectKeys`. -/
def linearInterpFields (fs1 fs2 : JSFields) (t : ℚ) : Except String JSFields :=
  match fs1 with
  | .nil => .ok .nil
  | .cons k v1 rest =>
    match fs2.lookupField k with
    | none =>
      -- `!x2.hasOwnProperty(key)`: skip this key
      linearInterpFields rest fs2 t
    | some v2 =>
      match linearInterp v1 v2 t none with
      | .error e => .error e
      | .ok w =>
        match linearInterpFields rest fs2 t with
        | .error e => .error e
        | .ok ws => .ok (.cons k w ws)
termination_by structural fs1

end

/-- The type of interpolation functions stored in keyframe triples (the
optional third entry of `[time, value, interpolate]`). -/
def Interp := JSValue → JSValue → ℚ → Option (List String) → Except String JSValue

/-- One keyframe triple `[time, value, interpolate?]`.  A missing third entry
defaults to `linearInterp` at the use site (`interpolate = linearInterp`
destructuring default in the source). -/
structure KFSample where
  time : ℚ
  value : JSValue
  interp : Option Interp := none

/-- `class KeyFrame` from `src/util.js`: `this.value` is the list of triples
given to the constructor, `this.interpolationKeys` is set by `withKeys`. -/
structure KeyFrame where
  value : List KFSample
  interpolationKeys : Option (List String) := none

/-- `KeyFrame.withKeys(keys)`. -/
def KeyFrame.withKeys (kf : KeyFrame) (keys : List String) : KeyFrame :=
  { kf with interpolationKeys := some keys }

/-- The body of one iteration of the `evaluate` loop once the surrounding pair
with `startTime <= time && time < endTime` has been found
(`src/util.js` lines 113–124). -/
def KeyFrame.interpolatePair (s1 s2 : KFSample) (time : ℚ)
    (interpolationKeys : Option (List String)) : Except String JSValue :=
  -- `if (!(typeof startValue === 'number' || typeof endValue === 'object'))`
  if ¬(s1.value.kind = .number ∨ s2.value.kind = .object) then
    .ok s1.value
  else if s1.value.kind ≠ s2.value.kind then
    .error "Type mismatch in keyframe values"
  else
    let percentProgress := (time - s1.time) / (s2.time - s1.time)
    (s1.interp.getD linearInterp) s1.value s2.value percentProgress interpolationKeys

/-- The `for (let i = 0; ...)` loop of `KeyFrame.evaluate`, with the sample at
index `i` passed as the explicit head `s` and the samples after it as the
list argument.  When `i` is the last index the start value is returned
("repeat last value forever"). -/
def KeyFrame.evalLoop (s : KFSample) : List KFSample → ℚ → Option (List String) →
    Except String JSValue
  | [], _, _ => .ok s.value
  | s2 :: rest, time, keys =>
    if s.time ≤ time ∧ time < s2.time then
      KeyFrame.interpolatePair s s2 time keys
    else
      KeyFrame.evalLoop s2 rest time keys

/-- The `evaluate` loop viewed on the whole (non-empty) sample list; the
empty case is unreachable because `evaluate` rejects empty keyframes first. -/
def evalLoopList : List KFSample → ℚ → Option (List String) → Except String JSValue
  | [], _, _ => .error "Empty keyframe"
  | s :: rest, time, keys => KeyFrame.evalLoop s rest time keys

/-- `KeyFrame.evaluate(time)` from `src/util.js`.  The `|time| is undefined or
null` check cannot fire in the model, where `time` is always a number. -/
def KeyFrame.evaluate (kf : KeyFrame) (time : ℚ) : Except String JSValue :=
  match kf.value with
  | [] => .error "Empty keyframe"
  | s :: rest =>
    if time < s.time then .error "No keyframe point before |time|"
    else KeyFrame.evalLoop s rest time kf.interpolationKeys

mutual

/-- A property slot reachable from an element: a `KeyFrame` instance, a
function-valued (computed) property, a plain value, or a nested plain object
that dotted paths walk through. -/
inductive EProp where
  | kf : KeyFrame → EProp
  | fnProp : (ℚ → JSValue) → EProp
  | lit : JSValue → EProp
  | dict : EFields → EProp

inductive EFields where
  | nil : EFields
  | cons : String → EProp → EFields → EFields

end

def EFields.lookupField : EFields → String → Option EProp
  | .nil, _ => none
  | .cons k v rest, key => if k = key then some v else rest.lookupField key

/-- The `while (pathParts.length > 0) property = property[pathParts.shift()]`
walk of `val`.  Indexing a non-object value yields `undefined` in JS; that is
modelled as `none`. -/
def EProp.walk : EProp → List String → Option EProp
  | p, [] => some p
  | .dict fs, k :: rest =>
    match fs.lookupField k with
    | some p => EProp.walk p rest
    | none => none
  | _, _ :: _ => none

mutual

/-- The plain JS value stored at a property slot that is neither a `KeyFrame`
nor a function.  `val` intercepts `KeyFrame` instances and functions at the
resolved path itself, so those constructors are only reached here when nested
below the resolved property; they stand for opaque objects. -/
def EProp.toValue : EProp → JSValue
  | .lit v => v
  | .dict fs => .obj fs.toFieldValues
  | .kf _ => .obj .nil
  | .fnProp _ => .obj .nil
termination_by structural p => p

def EFields.toFieldValues : EFields → JSFields
  | .nil => .nil
  | .cons k p rest => .cons k p.toValue rest.toFieldValues
termination_by structural fs => fs

end

/-- An element owning animated properties.  `id` is the element's JS object
identity and `movie` its owning movie's identity — the two `WeakMap` keys of
the value cache. -/
structure Element where
  id : Nat
  movie : Nat
  props : EFields
  propertyFilters : List (String × (JSValue → JSValue))

/-- The module-level `valCache` (`WeakMap` movie → `WeakMap` element →
`{path: value}`), flattened to entries keyed by
(movie identity, element identity, path).  Flattening preserves lookup and
the wholesale per-movie delete of `clearCachedValues`. -/
abbrev ValCache := List ((Nat × Nat × String) × JSValue)

/-- `cacheValue(element, path, value)`: store and return the value. -/
def cacheValue (c : ValCache) (element : Element) (path : String) (value : JSValue) :
    JSValue × ValCache :=
  (value, ((element.movie, element.id, path), value) :: c)

/-- `getCachedValue(element, path)` (`none` exactly when `hasCachedValue` is
false). -/
def getCachedValue (c : ValCache) (element : Element) (path : String) : Option JSValue :=
  List.lookup (element.movie, element.id, path) c

/-- `hasCachedValue(element, path)`. -/
def hasCachedValue (c : ValCache) (element : Element) (path : String) : Bool :=
  (getCachedValue c element path).isSome

/-- `clearCachedValues(movie)`: drop every entry of that movie. -/
def clearCachedValues (c : ValCache) (movie : Nat) : ValCache :=
  c.filter (fun e => e.1.1 ≠ movie)

/-- `val(element, path, time)` from `src/util.js`.  The cache is threaded
explicitly.  For function-valued properties the source calls
`property(element, time)`; the model drops the element argument (a computed
property closes over its element). -/
def val (c : ValCache) (element : Element) (path : String) (time : ℚ) :
    Except String (JSValue × ValCache) :=
  match getCachedValue c element path with
  | some v => .ok (v, c)  -- `if (hasCachedValue) return getCachedValue`
  | none =>
    let pathParts := path.splitOn "."
    match EProp.walk (.dict element.props) pathParts with
    | none => .error "Cannot read property"  -- the walk left the data model
    | some property =>
      let process := element.propertyFilters.lookup path
      match (match property with
             | .kf k => KeyFrame.evaluate k time
             | .fnProp f => .ok (f time)
             | p => .ok p.toValue) with
      | .error e => .error e
      | .ok value =>
        .ok (cacheValue c element path
              (match process with | some pr => pr value | none => value))

/-!  The `Movie` render-loop state machine (`src/movie.js`).

Canvases/2d-contexts are opaque identities (`Nat`); the context always follows
its canvas (`canvas.getContext("2d")`), so one identity stands for both.
`recording` mirrors `!!this._mediaRecorder`.  Published notifications are
collected in an ordered event list; `Event.layerEvt i name` is
`this.layers[i]._publish(name, …)` and `Event.movieEvt name` is
`this._publish(name, …)`.  Timestamps are in milliseconds and `currentTime`
in seconds, as in the source (`(timestamp - this._lastPlayed) / 1000`). -/

/-- The fields of a layer that the movie reads or writes. -/
structure Layer where
  startTime : ℚ
  duration : ℚ
  active : Bool
  hasMedia : Bool    -- whether `layer.media` is set
  mediaReady : Bool  -- `layer.media.readyState >= 2`
  hasCanvas : Bool   -- whether `layer.canvas` is set (visual layer)
deriving DecidableEq

/-- A published notification. -/
inductive Event where
  | movieEvt : String → Event
  | layerEvt : Nat → String → Event
deriving DecidableEq

/-- The `Movie` instance state read and written by the playback operations. -/
structure MovieState where
  layers : List Layer
  paused : Bool
  ended : Bool
  recording : Bool
  repeat' : Bool  -- `repeat` is reserved in Lean; this is `this.repeat`
  currentTime : ℚ
  lastPlayed : ℚ
  lastPlayedOffset : ℚ
  canvas : Nat
deriving DecidableEq

namespace Movie

/-- `get duration()`: `reduce((end, layer) => Math.max(layer.startTime +
layer.duration, end), 0)`. -/
def duration (m : MovieState) : ℚ :=
  m.layers.foldl (fun e l => max (l.startTime + l.duration) e) 0

/-- `pause()`: raise the paused switch, then publish "stop" to every layer and
mark it inactive (no check of the previous `active` flag). -/
def pause (m : MovieState) : MovieState × List Event :=
  ({ m with
      paused := true
      layers := m.layers.map (fun l => { l with active := false }) },
   (List.range m.layers.length).map (fun i => Event.layerEvt i "stop"))

/-- `_updateCurrentTime(instant, timestamp)`: unless instant, set
`currentTime` from the reference timestamps and publish "timeupdate". -/
def updateCurrentTime (m : MovieState) (instant : Bool) (timestamp : ℚ) :
    MovieState × List Event :=
  if instant then (m, [])
  else
    let sinceLastPlayed := (timestamp - m.lastPlayed) / 1000
    ({ m with currentTime := m.lastPlayedOffset + sinceLastPlayed },
     [Event.movieEvt "timeupdate"])

/-- The body of `_renderLayers(instant, timestamp)`, with `i` the index of the
first layer of the list argument in `this.layers`.  Returns the updated
layers, the published start/stop notifications, and `instantFullyLoaded`.
(`layer._render()` and the `drawImage` compositing have no observable state in
the model.) -/
def renderLayersAux (ct : ℚ) (instant : Bool) (i : Nat) :
    List Layer → List Layer × List Event × Bool
  | [] => ([], [], true)
  | l :: rest =>
    if ct < l.startTime ∨ ct ≥ l.startTime + l.duration then
      -- outside the layer's time interval
      let (l', evts) :=
        if l.active && !instant then
          ({ l with active := false }, [Event.layerEvt i "stop"])
        else (l, [])
      let (rest', evts', loaded) := renderLayersAux ct instant (i + 1) rest
      (l' :: rest', evts ++ evts', loaded)
    else
      let (l', evts) :=
        if !l.active && !instant then
          ({ l with active := true }, [Event.layerEvt i "start"])
        else (l, [])
      let loadedHere := !l.hasMedia || l.mediaReady
      let (rest', evts', loaded) := renderLayersAux ct instant (i + 1) rest
      (l' :: rest', evts ++ evts', loadedHere && loaded)

/-- `_renderLayers(instant, timestamp)`. -/
def renderLayers (m : MovieState) (instant : Bool) : MovieState × List Event × Bool :=
  let (layers', evts, loaded) := renderLayersAux m.currentTime instant 0 m.layers
  ({ m with layers := layers' }, evts, loaded)

/-- `_render(instant, timestamp)`.  The third component is whether the tick
schedules a continuation via `window.requestAnimationFrame`.  The call to
`performance.now()` inside the end-of-timeline branch is modelled by the
tick's own `timestamp` (both are readings of the same clock within one
tick). -/
def render (m : MovieState) (instant : Bool) (timestamp : ℚ) :
    MovieState × List Event × Bool :=
  if m.paused && !instant then (m, [], false)
  else
    let (m1, evts1) := updateCurrentTime m instant timestamp
    if m1.currentTime ≥ duration m1 then
      -- `this._publish("end", …)`, reset, `this._publish("timeupdate", …)`
      let m2 := { m1 with currentTime := 0, lastPlayed := timestamp,
                          lastPlayedOffset := 0 }
      let evts2 := evts1 ++ [Event.movieEvt "end", Event.movieEvt "timeupdate"]
      if !m2.repeat' || m2.recording then
        let (m3, evts3) := pause { m2 with ended := true }
        (m3, evts2 ++ evts3, false)
      else
        -- repeating and not recording: fall through to the unconditional
        -- `return` without scheduling another frame
        (m2, evts2, false)
    else
      -- `_renderBackground()` has no observable state in the model
      let (m2, evts2, loaded) := renderLayers m1 instant
      (m2, evts1 ++ evts2, !instant || (instant && !loaded))

/-- `refresh()`: `this._render(true)`; `timestamp` is the defaulted
`performance.now()` argument (unused by an instant render except through the
end-of-timeline branch). -/
def refresh (m : MovieState) (timestamp : ℚ) : MovieState × List Event × Bool :=
  render m true timestamp

/-- `set currentTime(time)`: store the position, publish "seek", then
`refresh()`. -/
def setCurrentTime (m : MovieState) (time : ℚ) (timestamp : ℚ) :
    MovieState × List Event × Bool :=
  let m1 := { m with currentTime := time }
  let (m2, evts, sched) := refresh m1 timestamp
  (m2, Event.movieEvt "seek" :: evts, sched)

/-- `stop()`: `pause()` then `this.currentTime = 0` (the setter). -/
def stop (m : MovieState) (timestamp : ℚ) : MovieState × List Event × Bool :=
  let (m1, evts1) := pause m
  let (m2, evts2, sched) := setCurrentTime m1 0 timestamp
  (m2, evts1 ++ evts2, sched)

/-- `play()`: clear the paused switch, record the reference timestamp and
offset, and run the first tick. -/
def play (m : MovieState) (now : ℚ) : MovieState × List Event × Bool :=
  let m1 := { m with paused := false, lastPlayed := now,
                     lastPlayedOffset := m.currentTime }
  render m1 false now

/-- The state of one `record(framerate, options)` session: the movie, the
original canvas captured in `canvasCache`, and the number of accumulated
`recordedChunks`. -/
structure RecordingSession where
  movie : MovieState
  canvasCache : Nat
  chunks : Nat
deriving DecidableEq

/-- The events delivered to the `MediaRecorder` handlers installed by
`record`. -/
inductive RecEvent where
  | dataavailable : Nat → RecEvent  -- with `event.data.size`
  | recStop : RecEvent
  | recError : RecEvent
deriving DecidableEq

/-- How the promise returned by `record` settles. -/
inductive SettleKind where
  | resolved : SettleKind
  | rejected : SettleKind
deriving DecidableEq

/-- `record(framerate, options)` up to and including the `play()` call: throws
unless paused; clears the paused/ended switches; swaps in a fresh off-screen
canvas (`tempCanvas`) keeping the original in `canvasCache`; publishes
"audiodestinationupdate" to every layer; installs the recorder
(`this._mediaRecorder = mediaRecorder`, so `recording` becomes true) and
starts playback. -/
def record (m : MovieState) (tempCanvas : Nat) (now : ℚ) :
    Except String (RecordingSession × List Event × Bool) :=
  if !m.paused then .error "Cannot record movie while playing"
  else
    let canvasCache := m.canvas
    let m1 := { m with paused := false, ended := false, canvas := tempCanvas,
                       recording := true }
    let evtsA := (List.range m1.layers.length).map
      (fun i => Event.layerEvt i "audiodestinationupdate")
    let (m2, evts, sched) := play m1 now
    .ok ({ movie := m2, canvasCache := canvasCache, chunks := 0 },
         evtsA ++ evts, sched)

/-- The `MediaRecorder` handlers installed by `record`:
`ondataavailable` pushes non-empty chunks; `onstop` sets `_ended`, resolves
the promise with the super-Blob, restores the original canvas and context,
republishes "audiodestinationupdate", and clears `_mediaRecorder`;
`onerror` is the promise's `reject`.  The second component is the
notifications published by the handler and the third is how (if at all) the
promise returned by `record` settles. -/
def handleRecorderEvent (s : RecordingSession) :
    RecEvent → RecordingSession × List Event × Option SettleKind
  | .dataavailable size =>
    if size > 0 then ({ s with chunks := s.chunks + 1 }, [], none)
    else (s, [], none)
  | .recStop =>
    let m := s.movie
    let m1 := { m with ended := true, canvas := s.canvasCache,
                       recording := false }
    ({ s with movie := m1 },
     (List.range m1.layers.length).map
       (fun i => Event.layerEvt i "audiodestinationupdate"),
     some .resolved)
  | .recError => (s, [], some .rejected)

end Movie

/-! ## Supporting lemmas -/

/-- A key is absent from `lookupField` exactly when it is not among the
object's keys. -/
theorem JSFields.lookupField_eq_none_iff :
    (fs : JSFields) → (k : String) → (fs.lookupField k = none ↔ k ∉ fs.keys)
  | .nil, k => by simp [JSFields.lookupField, JSFields.keys]
  | .cons k' v rest, k => by
    by_cases h : k' = k
    · subst h
      simp [JSFields.lookupField, JSFields.keys]
    · simp [JSFields.lookupField, JSFields.keys, h, Ne.symm h,
        JSFields.lookupField_eq_none_iff rest k]
termination_by structural fs => fs

/-- The fields of a successful `linearInterpFields` run are exactly the keys
present on both operands. -/
theorem linearInterpFields_keys :
    (fs1 fs2 : JSFields) → (t : ℚ) → (gs : JSFields) →
    linearInterpFields fs1 fs2 t = .ok gs → ∀ k : String,
    (k ∈ gs.keys ↔ (k ∈ fs1.keys ∧ k ∈ fs2.keys))
  | .nil, fs2, t, gs => by
    intro h k
    simp only [linearInterpFields] at h
    cases h
    simp [JSFields.keys]
  | .cons k' v1 rest, fs2, t, gs => by
    intro h k
    simp only [linearInterpFields] at h
    rcases hl : fs2.lookupField k' with _ | v2
    · simp only [hl] at h
      have hk' : k' ∉ fs2.keys := (JSFields.lookupField_eq_none_iff fs2 k').mp hl
      rw [linearInterpFields_keys rest fs2 t gs h k]
      by_cases hk : k = k'
      · subst hk
        simp [JSFields.keys, hk']
      · simp [JSFields.keys, hk]
    · simp only [hl] at h
      rcases hw : linearInterp v1 v2 t none with e | w
      · simp [hw] at h
      · simp only [hw] at h
        rcases hws : linearInterpFields rest fs2 t with e | ws
        · simp [hws] at h
        · simp only [hws, Except.ok.injEq] at h
          subst h
          have hk' : k' ∈ fs2.keys := by
            by_contra hmem
            rw [← JSFields.lookupField_eq_none_iff fs2 k'] at hmem
            rw [hmem] at hl; cases hl
          by_cases hk : k = k'
          · subst hk
            simp [JSFields.keys, hk']
          · simp [JSFields.keys, hk, linearInterpFields_keys rest fs2 t ws hws k]
termination_by structural fs1 => fs1

/-! ## Claims -/

/-- C5 (code bug): `interpolationKeys` never restricts the interpolated field
set, because `Object.keys(x1) || objectKeys` always takes `Object.keys(x1)`.
With operands `{x:1, y:0}` and `{x:3, y:10}` and `objectKeys = ["x"]`, the
field `y` is interpolated anyway, yielding `{x:2, y:5}` at `t = 1/2` instead
of leaving `y` alone. -/
theorem linearInterp_at_input_ignores_keys :
    linearInterp (.obj (.cons "x" (.num 1) (.cons "y" (.num 0) .nil)))
                 (.obj (.cons "x" (.num 3) (.cons "y" (.num 10) .nil)))
                 (1/2) (some ["x"]) =
      .ok (.obj (.cons "x" (.num 2) (.cons "y" (.num 5) .nil))) := by
  simp +decide [linearInterp, linearInterpFields, JSFields.lookupField, JSValue.kind]
  norm_num

/-- The `objectKeys` argument of `linearInterp` has no effect at all. -/
theorem linearInterp_objectKeys_irrelevant (x1 x2 : JSValue) (t : ℚ)
    (objectKeys : Option (List String)) :
    linearInterp x1 x2 t objectKeys = linearInterp x1 x2 t none := by
  cases x1 <;> cases x2 <;> rfl

/-- C6: a successful structured interpolation produces an object whose fields
are exactly those present on both operands. -/
theorem linearInterp_object_field_intersection (fs1 fs2 : JSFields) (t : ℚ)
    (objectKeys : Option (List String)) (w : JSValue)
    (h : linearInterp (.obj fs1) (.obj fs2) t objectKeys = .ok w) :
    ∃ gs, w = .obj gs ∧ ∀ k, k ∈ gs.keys ↔ (k ∈ fs1.keys ∧ k ∈ fs2.keys) := by
  simp only [linearInterp, JSValue.kind, ne_eq, not_true_eq_false, if_false,
    reduceCtorEq, not_false_eq_true, if_true] at h
  rcases hf : linearInterpFields fs1 fs2 t with e | gs
  · rw [hf] at h; cases h
  · rw [hf] at h
    cases h
    exact ⟨gs, rfl, linearInterpFields_keys fs1 fs2 t gs hf⟩

/-- Witness for C6 at the spec's own example: `{x:1,y:2}` and `{x:3}` at
`t = 1/2` yield `{x:2}`, whose field set is the two operands'
intersection. -/
theorem linearInterp_object_field_intersection_witness :
    linearInterp (.obj (.cons "x" (.num 1) (.cons "y" (.num 2) .nil)))
        (.obj (.cons "x" (.num 3) .nil)) (1/2) none =
      .ok (.obj (.cons "x" (.num 2) .nil)) ∧
    (∃ gs, JSValue.obj (.cons "x" (.num 2) .nil) = .obj gs ∧
      ∀ k, k ∈ gs.keys ↔
        (k ∈ (JSFields.cons "x" (.num 1) (.cons "y" (.num 2) .nil)).keys ∧
         k ∈ (JSFields.cons "x" (.num 3) .nil).keys)) := by
  have h : linearInterp (.obj (.cons "x" (.num 1) (.cons "y" (.num 2) .nil)))
      (.obj (.cons "x" (.num 3) .nil)) (1/2) none =
      .ok (.obj (.cons "x" (.num 2) .nil)) := by
    simp +decide [linearInterp, linearInterpFields, JSFields.lookupField, JSValue.kind]
    norm_num
  exact ⟨h, linearInterp_object_field_intersection _ _ _ _ _ h⟩

/-- C7: a cached `(element, path)` entry short-circuits `val`: the cached
value is returned unchanged, the cache is untouched, and the `time` argument
(universally quantified here) is never consulted. -/
theorem val_cached_bypasses_evaluation (c : ValCache) (element : Element)
    (path : String) (time : ℚ) (v : JSValue)
    (h : getCachedValue c element path = some v) :
    val c element path time = .ok (v, c) := by
  simp [val, h]

/-- Witness for C7: a cache entry for path "x" produced earlier is returned
by a `val` call at the unrelated time 99. -/
theorem val_cached_bypasses_evaluation_witness :
    getCachedValue [((1, 2, "x"), JSValue.num 5)] ⟨2, 1, .nil, []⟩ "x" =
      some (.num 5) ∧
    val [((1, 2, "x"), JSValue.num 5)] ⟨2, 1, .nil, []⟩ "x" 99 =
      .ok (.num 5, [((1, 2, "x"), JSValue.num 5)]) :=
  ⟨rfl, val_cached_bypasses_evaluation _ _ _ _ _ rfl⟩

/-- When every sample time is at most `t`, the evaluate loop runs to its last
iteration and returns the last sample's value. -/
theorem KeyFrame.evalLoop_last (keys : Option (List String)) :
    ∀ (rest : List KFSample) (s : KFSample) (t : ℚ),
      (∀ x ∈ s :: rest, x.time ≤ t) →
      KeyFrame.evalLoop s rest t keys = .ok (rest.getLastD s).value := by
  intro rest
  induction rest with
  | nil => intro s t _; simp [KeyFrame.evalLoop, List.getLastD]
  | cons s2 rest' ih =>
    intro s t h
    have h2 : s2.time ≤ t := h s2 (by simp)
    rw [KeyFrame.evalLoop, if_neg (fun hc => absurd hc.2 (not_lt.mpr h2)),
      ih s2 t (fun x hx => h x (by simp [hx])), List.getLastD_cons]

/-- In a time-sorted sample list whose last time is at most `t`, every time is
at most `t`. -/
theorem times_le_of_sorted (t : ℚ) :
    ∀ (rest : List KFSample) (s : KFSample),
      List.Pairwise (fun a b => a.time ≤ b.time) (s :: rest) →
      (rest.getLastD s).time ≤ t →
      ∀ x ∈ s :: rest, x.time ≤ t := by
  intro rest
  induction rest with
  | nil =>
    intro s _ hl x hx
    simp only [List.mem_singleton] at hx
    subst hx
    simpa [List.getLastD] using hl
  | cons s2 rest' ih =>
    intro s hp hl x hx
    have hp' := hp.tail
    have hs12 : s.time ≤ s2.time := (List.pairwise_cons.mp hp).1 s2 (by simp)
    rw [List.getLastD_cons] at hl
    have hall := ih s2 hp' hl
    rcases List.mem_cons.mp hx with rfl | hx'
    · exact le_trans hs12 (hall s2 (by simp))
    · exact hall x hx'

/-- Locating the surrounding pair: when every sample before `s1` has time at
most `t` and `s1.time ≤ t < s2.time`, the loop lands on the pair
`(s1, s2)`. -/
theorem evalLoopList_locate (s1 s2 : KFSample) (l2 : List KFSample) (t : ℚ)
    (keys : Option (List String)) (h1 : s1.time ≤ t) (h2 : t < s2.time) :
    ∀ l1 : List KFSample, (∀ x ∈ l1, x.time ≤ t) →
      evalLoopList (l1 ++ s1 :: s2 :: l2) t keys =
        KeyFrame.interpolatePair s1 s2 t keys := by
  intro l1
  induction l1 with
  | nil =>
    intro _
    rw [List.nil_append, evalLoopList, KeyFrame.evalLoop, if_pos ⟨h1, h2⟩]
  | cons u l1' ih =>
    intro h
    have hu : ∀ x ∈ l1', x.time ≤ t := fun x hx => h x (by simp [hx])
    have step := ih hu
    cases l1' with
    | nil =>
      rw [List.cons_append, List.nil_append, evalLoopList, KeyFrame.evalLoop,
        if_neg (fun hc => absurd hc.2 (not_lt.mpr h1))]
      simpa [evalLoopList] using step
    | cons v l1'' =>
      have hv : v.time ≤ t := h v (by simp)
      rw [List.cons_append, evalLoopList, List.cons_append, KeyFrame.evalLoop,
        if_neg (fun hc => absurd hc.2 (not_lt.mpr hv))]
      simpa [evalLoopList, List.cons_append] using step

/-- `evaluate` reduces to the bare loop whenever the query time is not before
the first sample. -/
theorem evaluate_eq_evalLoopList (kf : KeyFrame) (t : ℚ) (s : KFSample)
    (rest : List KFSample) (hval : kf.value = s :: rest) (hts : s.time ≤ t) :
    kf.evaluate t = evalLoopList kf.value t kf.interpolationKeys := by
  simp only [KeyFrame.evaluate, hval, evalLoopList]
  rw [if_neg (not_lt.mpr hts)]

/-- C3 counterexample: for the time-sorted two-sample keyframe with structured
values `{x:1, y:2}` then `{x:3}`, evaluating at the first sample's time 0
yields `{x:1}` — not the first sample's value `{x:1, y:2}` (the `y` field is
dropped by linear interpolation at progress 0). -/
theorem evaluate_firstTime_counterexample :
    KeyFrame.evaluate
        ⟨[⟨0, .obj (.cons "x" (.num 1) (.cons "y" (.num 2) .nil)), none⟩,
          ⟨1, .obj (.cons "x" (.num 3) .nil), none⟩], none⟩ 0 =
      .ok (.obj (.cons "x" (.num 1) .nil)) ∧
    JSValue.obj (.cons "x" (.num 1) .nil) ≠
      .obj (.cons "x" (.num 1) (.cons "y" (.num 2) .nil)) ∧
    (0 : ℚ) ≤ 1 := by
  refine ⟨?_, by decide, by norm_num⟩
  simp +decide [KeyFrame.evaluate, KeyFrame.evalLoop, KeyFrame.interpolatePair,
    JSValue.kind, linearInterp, linearInterpFields, JSFields.lookupField]

/-- C3 (amended): for every non-empty time-sorted keyframe, evaluating at or
after the last sample's time returns the last sample's value; and evaluating
at the first sample's time returns the first sample's value provided the
sample times are strictly increasing and all values are numeric with the
default (linear) strategy. -/
theorem evaluate_first_last_amended :
    (∀ (kf : KeyFrame) (t : ℚ) (s : KFSample) (rest : List KFSample),
      kf.value = s :: rest →
      List.Pairwise (fun a b => a.time ≤ b.time) kf.value →
      (rest.getLastD s).time ≤ t →
      kf.evaluate t = .ok (rest.getLastD s).value) ∧
    (∀ (kf : KeyFrame) (s : KFSample) (rest : List KFSample),
      kf.value = s :: rest →
      List.Pairwise (fun a b => a.time < b.time) kf.value →
      (∀ x ∈ kf.value, x.value.kind = .number) →
      (∀ x ∈ kf.value, x.interp = none) →
      kf.evaluate s.time = .ok s.value) := by
  constructor
  · intro kf t s rest hval hsort hlast
    rw [hval] at hsort
    have hall := times_le_of_sorted t rest s hsort hlast
    simp only [KeyFrame.evaluate, hval]
    rw [if_neg (not_lt.mpr (hall s (by simp)))]
    exact KeyFrame.evalLoop_last kf.interpolationKeys rest s t hall
  · intro kf s rest hval hsort hnum hdefault
    simp only [KeyFrame.evaluate, hval]
    rw [if_neg (lt_irrefl s.time)]
    cases rest with
    | nil => rw [KeyFrame.evalLoop]
    | cons s2 rest' =>
      rw [hval] at hsort hnum hdefault
      have h12 : s.time < s2.time := (List.pairwise_cons.mp hsort).1 s2 (by simp)
      rw [KeyFrame.evalLoop, if_pos ⟨le_refl s.time, h12⟩]
      have hs : s.value.kind = .number := hnum s (by simp)
      have hs2 : s2.value.kind = .number := hnum s2 (by simp)
      have hd : s.interp = none := hdefault s (by simp)
      obtain ⟨a, hv1⟩ : ∃ a, s.value = JSValue.num a := by
        cases hsv : s.value
        · exact ⟨_, rfl⟩
        · rw [hsv] at hs; simp [JSValue.kind] at hs
        · rw [hsv] at hs; simp [JSValue.kind] at hs
      obtain ⟨b, hv2⟩ : ∃ b, s2.value = JSValue.num b := by
        cases hsv : s2.value
        · exact ⟨_, rfl⟩
        · rw [hsv] at hs2; simp [JSValue.kind] at hs2
        · rw [hsv] at hs2; simp [JSValue.kind] at hs2
      rw [KeyFrame.interpolatePair, hv1, hv2, hd]
      have hpct : (s.time - s.time) / (s2.time - s.time) = 0 := by
        rw [sub_self, zero_div]
      simp [JSValue.kind, linearInterp, hpct]

/-- Witness for C3 at the keyframe `[(0, 1), (5, 9)]`: evaluating at 7 (past
the last time 5) yields 9, and evaluating at the first time 0 yields 1. -/
theorem evaluate_first_last_amended_witness :
    KeyFrame.evaluate ⟨[⟨0, .num 1, none⟩, ⟨5, .num 9, none⟩], none⟩ 7 =
      .ok (.num 9) ∧
    KeyFrame.evaluate ⟨[⟨0, .num 1, none⟩, ⟨5, .num 9, none⟩], none⟩ 0 =
      .ok (.num 1) := by
  constructor
  · have := evaluate_first_last_amended.1
      ⟨[⟨0, .num 1, none⟩, ⟨5, .num 9, none⟩], none⟩ 7
      ⟨0, .num 1, none⟩ [⟨5, .num 9, none⟩] rfl
      (by norm_num [List.pairwise_cons]) (by norm_num [List.getLastD])
    simpa [List.getLastD] using this
  · have := evaluate_first_last_amended.2
      ⟨[⟨0, .num 1, none⟩, ⟨5, .num 9, none⟩], none⟩
      ⟨0, .num 1, none⟩ [⟨5, .num 9, none⟩] rfl
      (by norm_num [List.pairwise_cons])
      (by intro x hx; simp at hx; rcases hx with rfl | rfl <;> rfl)
      (by intro x hx; simp at hx; rcases hx with rfl | rfl <;> rfl)
    simpa using this

/-- C4 counterexample: with samples `(0, "a")` and `(1, 1)` — a string
followed by a number, two different runtime kinds — evaluating between them
at 1/2 does not fail with a type mismatch: it flat-returns `"a"`. -/
theorem evaluate_kind_mismatch_counterexample :
    KeyFrame.evaluate ⟨[⟨0, .str "a", none⟩, ⟨1, .num 1, none⟩], none⟩ (1/2) =
      .ok (.str "a") ∧
    (JSValue.str "a").kind ≠ (JSValue.num 1).kind := by
  refine ⟨?_, by decide⟩
  simp +decide [KeyFrame.evaluate, KeyFrame.evalLoop, KeyFrame.interpolatePair,
    JSValue.kind]
  norm_num

/-- C4 (amended): when the query time falls between two samples of different
runtime kinds in a time-sorted keyframe, evaluation fails with the type
mismatch error exactly when the start value is numeric or the end value is
structured; otherwise the start value is returned unchanged (flat). -/
theorem evaluate_kind_mismatch_amended (kf : KeyFrame) (l1 l2 : List KFSample)
    (s1 s2 : KFSample) (t : ℚ)
    (hval : kf.value = l1 ++ s1 :: s2 :: l2)
    (hsort : List.Pairwise (fun a b => a.time ≤ b.time) kf.value)
    (h1 : s1.time ≤ t) (h2 : t < s2.time)
    (hkind : s1.value.kind ≠ s2.value.kind) :
    ((s1.value.kind = .number ∨ s2.value.kind = .object) →
      kf.evaluate t = .error "Type mismatch in keyframe values") ∧
    (¬(s1.value.kind = .number ∨ s2.value.kind = .object) →
      kf.evaluate t = .ok s1.value) := by
  have hl1 : ∀ x ∈ l1, x.time ≤ t := by
    intro x hx
    rw [hval] at hsort
    have hxs1 : x.time ≤ s1.time :=
      (List.pairwise_append.mp hsort).2.2 x hx s1 (by simp)
    exact le_trans hxs1 h1
  have hloc : kf.evaluate t =
      KeyFrame.interpolatePair s1 s2 t kf.interpolationKeys := by
    cases l1 with
    | nil =>
      rw [evaluate_eq_evalLoopList kf t s1 (s2 :: l2) (by simpa using hval) h1,
        hval]
      simpa using evalLoopList_locate s1 s2 l2 t kf.interpolationKeys h1 h2 []
        (by simp)
    | cons u l1' =>
      have hut : u.time ≤ t := hl1 u (by simp)
      rw [evaluate_eq_evalLoopList kf t u (l1' ++ s1 :: s2 :: l2)
        (by simpa using hval) hut, hval]
      exact evalLoopList_locate s1 s2 l2 t kf.interpolationKeys h1 h2
        (u :: l1') hl1
  constructor
  · intro hd
    rw [hloc, KeyFrame.interpolatePair, if_neg (not_not_intro hd), if_pos hkind]
  · intro hd
    rw [hloc, KeyFrame.interpolatePair, if_pos hd]

/-- Witness for C4 at the keyframe `[(0, 0), (1, "b")]` queried at 1/2: the
start value is numeric, so the kind mismatch raises the error. -/
theorem evaluate_kind_mismatch_amended_witness :
    KeyFrame.evaluate ⟨[⟨0, .num 0, none⟩, ⟨1, .str "b", none⟩], none⟩ (1/2) =
      .error "Type mismatch in keyframe values" :=
  (evaluate_kind_mismatch_amended
    ⟨[⟨0, .num 0, none⟩, ⟨1, .str "b", none⟩], none⟩ [] []
    ⟨0, .num 0, none⟩ ⟨1, .str "b", none⟩ (1/2) rfl
    (by norm_num [List.pairwise_cons])
    (by norm_num) (by norm_num) (by decide)).1 (by decide)

/-- `_render` never touches the output canvas identity: canvas substitution
happens only in `record` and in the recorder's stop handler. -/
theorem render_canvas_eq (m : MovieState) (instant : Bool) (ts : ℚ) :
    (Movie.render m instant ts).1.canvas = m.canvas := by
  unfold Movie.render Movie.updateCurrentTime Movie.renderLayers Movie.pause
  split
  · rfl
  · split
    rename_i m3 evts3 heq
    have hc : m3.canvas = m.canvas := by
      split at heq <;> (injection heq with h1 h2; subst h1; rfl)
    split
    · dsimp only
      split <;> simp [hc]
    · dsimp only
      exact hc

/-- An instant `_renderLayers` pass changes no layer state and publishes
nothing; it reports full loading when every in-window media layer is
ready. -/
theorem renderLayersAux_instant (ct : ℚ) :
    ∀ (ls : List Layer) (i : Nat),
      (∀ l ∈ ls, l.startTime ≤ ct → ct < l.startTime + l.duration →
        l.hasMedia = true → l.mediaReady = true) →
      Movie.renderLayersAux ct true i ls = (ls, [], true) := by
  intro ls
  induction ls with
  | nil => intro i _; rfl
  | cons l rest ih =>
    intro i h
    have hrest : ∀ x ∈ rest, x.startTime ≤ ct → ct < x.startTime + x.duration →
        x.hasMedia = true → x.mediaReady = true :=
      fun x hx => h x (by simp [hx])
    by_cases hw : ct < l.startTime ∨ ct ≥ l.startTime + l.duration
    · rw [Movie.renderLayersAux, if_pos hw]
      simp [ih (i + 1) hrest]
    · rw [Movie.renderLayersAux, if_neg hw]
      push_neg at hw
      have hl : (!l.hasMedia || l.mediaReady) = true := by
        rcases hm : l.hasMedia with _ | _
        · simp
        · simp [h l (by simp) hw.1 hw.2 hm]
      simp [ih (i + 1) hrest, hl]

/-- C2: with `repeat` unset, the first tick whose advanced time reaches the
duration publishes exactly one "end", resets `currentTime` to 0, publishes a
"timeupdate", and leaves Playing by raising both the paused and ended
switches via `pause()`. -/
theorem render_end_transition (m : MovieState) (ts : ℚ)
    (hp : m.paused = false) (hr : m.repeat' = false)
    (hend : Movie.duration m ≤ m.lastPlayedOffset + (ts - m.lastPlayed) / 1000) :
    ((Movie.render m false ts).2.1).count (Event.movieEvt "end") = 1 ∧
    (Movie.render m false ts).1.currentTime = 0 ∧
    Event.movieEvt "timeupdate" ∈ (Movie.render m false ts).2.1 ∧
    (Movie.render m false ts).1.paused = true ∧
    (Movie.render m false ts).1.ended = true := by
  have key : Movie.render m false ts =
      ({ layers := m.layers.map (fun l => { l with active := false }),
         paused := true, ended := true, recording := m.recording,
         repeat' := false, currentTime := 0, lastPlayed := ts,
         lastPlayedOffset := 0, canvas := m.canvas },
       Event.movieEvt "timeupdate" :: Event.movieEvt "end" ::
         Event.movieEvt "timeupdate" ::
         (List.range m.layers.length).map (fun i => Event.layerEvt i "stop"),
       false) := by
    unfold Movie.render Movie.updateCurrentTime Movie.pause
    simp [hp, hr, ge_iff_le, hend]
    exact hend
  rw [key]
  refine ⟨?_, rfl, by simp, rfl, rfl⟩
  simp only [List.count_cons, List.count_eq_zero_of_not_mem
    (show Event.movieEvt "end" ∉
      (List.range m.layers.length).map (fun i => Event.layerEvt i "stop") by simp)]
  simp

/-- Witness for C2: one layer over `[0, 5)`, playing from offset 0 since
timestamp 0; the tick at timestamp 6000 ms computes time 6 ≥ 5. -/
theorem render_end_transition_witness :
    ((⟨[⟨0, 5, true, false, false, false⟩], false, false, false, false,
        4, 0, 0, 0⟩ : MovieState).paused = false) ∧
    ((Movie.render ⟨[⟨0, 5, true, false, false, false⟩], false, false, false,
        false, 4, 0, 0, 0⟩ false 6000).2.1).count (Event.movieEvt "end") = 1 ∧
    (Movie.render ⟨[⟨0, 5, true, false, false, false⟩], false, false, false,
        false, 4, 0, 0, 0⟩ false 6000).1.currentTime = 0 ∧
    (Movie.render ⟨[⟨0, 5, true, false, false, false⟩], false, false, false,
        false, 4, 0, 0, 0⟩ false 6000).1.paused = true :=
  have h := render_end_transition
    ⟨[⟨0, 5, true, false, false, false⟩], false, false, false, false,
      4, 0, 0, 0⟩ 6000 rfl rfl (by norm_num [Movie.duration])
  ⟨rfl, h.1, h.2.1, h.2.2.2.1⟩

/-- C1 (code bug): with `repeat` set and recording off, the end-of-timeline
tick does reset `currentTime` to 0 and stays out of Ended/Paused, but it
returns without scheduling a continuation (`requestAnimationFrame` is never
reached), so playback does not in fact continue from time 0. -/
theorem render_repeat_end_no_reschedule (m : MovieState) (ts : ℚ)
    (hp : m.paused = false) (hr : m.repeat' = true) (hrec : m.recording = false)
    (hend : Movie.duration m ≤ m.lastPlayedOffset + (ts - m.lastPlayed) / 1000) :
    (Movie.render m false ts).1.paused = false ∧
    (Movie.render m false ts).1.ended = m.ended ∧
    (Movie.render m false ts).1.currentTime = 0 ∧
    ((Movie.render m false ts).2.1).count (Event.movieEvt "end") = 1 ∧
    (Movie.render m false ts).2.2 = false := by
  have key : Movie.render m false ts =
      ({ layers := m.layers, paused := false, ended := m.ended,
         recording := false, repeat' := true, currentTime := 0,
         lastPlayed := ts, lastPlayedOffset := 0, canvas := m.canvas },
       [Event.movieEvt "timeupdate", Event.movieEvt "end",
        Event.movieEvt "timeupdate"],
       false) := by
    unfold Movie.render Movie.updateCurrentTime Movie.pause
    simp [hp, hr, hrec, ge_iff_le, hend]
    exact hend
  rw [key]
  exact ⟨rfl, rfl, rfl, by simp [List.count_cons], rfl⟩

/-- Witness for C1: a repeating, non-recording movie over `[0, 5)` ticking at
timestamp 6000 ms resets to time 0 without pausing — and schedules no next
tick. -/
theorem render_repeat_end_no_reschedule_witness :
    ((⟨[⟨0, 5, true, false, false, false⟩], false, false, false, true,
        4, 0, 0, 0⟩ : MovieState).repeat' = true) ∧
    (Movie.render ⟨[⟨0, 5, true, false, false, false⟩], false, false, false,
        true, 4, 0, 0, 0⟩ false 6000).1.paused = false ∧
    (Movie.render ⟨[⟨0, 5, true, false, false, false⟩], false, false, false,
        true, 4, 0, 0, 0⟩ false 6000).1.currentTime = 0 ∧
    (Movie.render ⟨[⟨0, 5, true, false, false, false⟩], false, false, false,
        true, 4, 0, 0, 0⟩ false 6000).2.2 = false :=
  have h := render_repeat_end_no_reschedule
    ⟨[⟨0, 5, true, false, false, false⟩], false, false, false, true,
      4, 0, 0, 0⟩ 6000 rfl rfl rfl (by norm_num [Movie.duration])
  ⟨rfl, h.1, h.2.2.1, h.2.2.2.2⟩

/-- C8 counterexample: pausing a movie whose only layer is inactive still
publishes one "stop" notification to that layer — not zero as the claim
requires for inactive layers. -/
theorem pause_stop_inactive_counterexample :
    ((⟨[⟨0, 5, false, false, false, false⟩], false, false, false, false,
        1, 0, 0, 0⟩ : MovieState).layers.map Layer.active = [false]) ∧
    ((Movie.pause ⟨[⟨0, 5, false, false, false, false⟩], false, false, false,
        false, 1, 0, 0, 0⟩).2).count (Event.layerEvt 0 "stop") = 1 := by
  constructor
  · rfl
  · simp [Movie.pause, List.range_succ]

/-- C8 (amended): `pause()` publishes exactly one "stop" to every layer —
active or not — and marks every layer inactive. -/
theorem pause_stops_all_layers (m : MovieState) (i : Nat)
    (hi : i < m.layers.length) :
    ((Movie.pause m).2).count (Event.layerEvt i "stop") = 1 ∧
    ∀ l ∈ (Movie.pause m).1.layers, l.active = false := by
  constructor
  · have hinj : Function.Injective (fun j => Event.layerEvt j "stop") := by
      intro a b hab
      injection hab with h1 _
    have hmem : Event.layerEvt i "stop" ∈
        (List.range m.layers.length).map (fun j => Event.layerEvt j "stop") :=
      List.mem_map.mpr ⟨i, List.mem_range.mpr hi, rfl⟩
    simpa [Movie.pause] using
      List.count_eq_one_of_mem ((List.nodup_range _).map hinj) hmem
  · intro l hl
    simp only [Movie.pause, List.mem_map] at hl
    obtain ⟨l', _, rfl⟩ := hl
    rfl

/-- Witness for C8 (amended): pausing a two-layer movie (one active, one
inactive) stops each layer exactly once and deactivates everything. -/
theorem pause_stops_all_layers_witness :
    (1 < (⟨[⟨0, 5, true, false, false, false⟩, ⟨1, 2, false, false, false,
        false⟩], false, false, false, false, 1, 0, 0, 0⟩ :
        MovieState).layers.length) ∧
    ((Movie.pause ⟨[⟨0, 5, true, false, false, false⟩,
        ⟨1, 2, false, false, false, false⟩], false, false, false, false,
        1, 0, 0, 0⟩).2).count (Event.layerEvt 1 "stop") = 1 ∧
    ∀ l ∈ (Movie.pause ⟨[⟨0, 5, true, false, false, false⟩,
        ⟨1, 2, false, false, false, false⟩], false, false, false, false,
        1, 0, 0, 0⟩).1.layers, l.active = false :=
  have h := pause_stops_all_layers
    ⟨[⟨0, 5, true, false, false, false⟩, ⟨1, 2, false, false, false, false⟩],
      false, false, false, false, 1, 0, 0, 0⟩ 1 (by decide)
  ⟨by decide, h.1, h.2⟩

/-- C10 counterexample: seeking a movie with no layers (duration 0) to time 5
runs the instant render into the end-of-timeline branch: the stored position
becomes 0 — not 5 — and the paused and ended flags flip. -/
theorem setCurrentTime_past_duration_counterexample :
    ((⟨[], false, false, false, false, 0, 0, 0, 0⟩ : MovieState).paused
        = false) ∧
    (Movie.setCurrentTime ⟨[], false, false, false, false, 0, 0, 0, 0⟩ 5
        0).1.currentTime = 0 ∧
    (Movie.setCurrentTime ⟨[], false, false, false, false, 0, 0, 0, 0⟩ 5
        0).1.paused = true ∧
    (Movie.setCurrentTime ⟨[], false, false, false, false, 0, 0, 0, 0⟩ 5
        0).1.ended = true := by
  refine ⟨rfl, ?_⟩
  simp +decide [Movie.setCurrentTime, Movie.refresh, Movie.render,
    Movie.updateCurrentTime, Movie.duration, Movie.pause, Movie.renderLayers,
    Movie.renderLayersAux]

/-- C10 (amended): a seek to a time below the movie's duration, with every
in-window media layer loaded, stores exactly the assigned position, publishes
one "seek", performs a single instant render that schedules nothing, and
leaves every other movie field — in particular the paused, ended and
recording flags — unchanged. -/
theorem setCurrentTime_seek (m : MovieState) (t ts : ℚ)
    (hdur : t < Movie.duration m)
    (hloaded : ∀ l ∈ m.layers, l.startTime ≤ t → t < l.startTime + l.duration →
      l.hasMedia = true → l.mediaReady = true) :
    Movie.setCurrentTime m t ts =
      ({ m with currentTime := t }, [Event.movieEvt "seek"], false) := by
  have haux := renderLayersAux_instant t m.layers 0 hloaded
  have hnd : ¬ Movie.duration { m with currentTime := t } ≤ t :=
    not_le.mpr hdur
  unfold Movie.setCurrentTime Movie.refresh Movie.render Movie.updateCurrentTime
    Movie.renderLayers
  simp [ge_iff_le, hnd, haux]

/-- Witness for C10: seeking a paused one-layer movie over `[0, 5)` to time 2
yields exactly the position change, one "seek", and no scheduled tick. -/
theorem setCurrentTime_seek_witness :
    ((2 : ℚ) < Movie.duration ⟨[⟨0, 5, false, false, false, false⟩], true,
        false, false, false, 0, 0, 0, 0⟩) ∧
    Movie.setCurrentTime ⟨[⟨0, 5, false, false, false, false⟩], true, false,
        false, false, 0, 0, 0, 0⟩ 2 0 =
      ({ (⟨[⟨0, 5, false, false, false, false⟩], true, false, false, false,
          0, 0, 0, 0⟩ : MovieState) with currentTime := 2 },
       [Event.movieEvt "seek"], false) :=
  ⟨by norm_num [Movie.duration],
   setCurrentTime_seek _ 2 0 (by norm_num [Movie.duration])
    (by
      intro l hl h1 h2 h3
      simp only [List.mem_singleton] at hl
      subst hl
      exact absurd h3 (by decide))⟩

/-- C9 counterexample: after `record` swaps in the temporary canvas 1 (the
original being 0), a recorder error settles the awaited result as rejected
while the movie is still drawing to canvas 1 — the original surface is not
restored on the error path. -/
theorem record_error_no_canvas_restore_counterexample :
    ((⟨[⟨0, 5, false, false, false, false⟩], true, false, false, false,
        0, 0, 0, 0⟩ : MovieState).canvas = 0) ∧
    match Movie.record ⟨[⟨0, 5, false, false, false, false⟩], true, false,
        false, false, 0, 0, 0, 0⟩ 1 0 with
    | .ok (s, _, _) =>
        (Movie.handleRecorderEvent s .recError).2.2 = some .rejected ∧
        (Movie.handleRecorderEvent s .recError).1.movie.canvas = 1
    | .error _ => False := by
  refine ⟨rfl, ?_⟩
  simp +decide [Movie.record, Movie.play, Movie.render, Movie.updateCurrentTime,
    Movie.duration, Movie.renderLayers, Movie.renderLayersAux,
    Movie.handleRecorderEvent]

/-- C9 (amended): for every recording started from a paused movie, the
recorder's stop handler restores the original canvas and resolves the awaited
result, while a recorder error rejects the result — without crashing the
loop, but also without restoring the original canvas, which stays the
temporary recording surface. -/
theorem record_termination_paths (m : MovieState) (tempCanvas : Nat) (now : ℚ)
    (hp : m.paused = true) :
    match Movie.record m tempCanvas now with
    | .ok (s, _, _) =>
        ((Movie.handleRecorderEvent s .recStop).1.movie.canvas = m.canvas ∧
         (Movie.handleRecorderEvent s .recStop).2.2 = some .resolved) ∧
        ((Movie.handleRecorderEvent s .recError).2.2 = some .rejected ∧
         (Movie.handleRecorderEvent s .recError).1.movie.canvas = tempCanvas)
    | .error _ => False := by
  unfold Movie.record
  rw [hp]
  dsimp only [Bool.not_true, Bool.false_eq_true, if_false]
  refine ⟨⟨rfl, rfl⟩, rfl, ?_⟩
  show (Movie.play _ now).1.canvas = tempCanvas
  unfold Movie.play
  rw [render_canvas_eq]

/-- Witness for C9: recording a paused one-layer movie from canvas 0 onto the
temporary canvas 2; stopping restores canvas 0 and resolves, erroring rejects
and leaves canvas 2. -/
theorem record_termination_paths_witness :
    ((⟨[⟨0, 5, false, false, false, false⟩], true, false, false, false,
        0, 0, 0, 0⟩ : MovieState).paused = true) ∧
    match Movie.record ⟨[⟨0, 5, false, false, false, false⟩], true, false,
        false, false, 0, 0, 0, 0⟩ 2 0 with
    | .ok (s, _, _) =>
        ((Movie.handleRecorderEvent s .recStop).1.movie.canvas =
            (⟨[⟨0, 5, false, false, false, false⟩], true, false, false, false,
              0, 0, 0, 0⟩ : MovieState).canvas ∧
         (Movie.handleRecorderEvent s .recStop).2.2 = some .resolved) ∧
        ((Movie.handleRecorderEvent s .recError).2.2 = some .rejected ∧
         (Movie.handleRecorderEvent s .recError).1.movie.canvas = 2)
    | .error _ => False :=
  ⟨rfl, record_termination_paths
    ⟨[⟨0, 5, false, false, false, false⟩], true, false, false, false,
      0, 0, 0, 0⟩ 2 0 rfl⟩

end Moviejs
